import Mathlib

/-! Formal model of the tokenizer of gentlemen-rs (src/lexer.rs and its use in
src/main.rs).  The lexer is written with nom 2/3-era streaming parser
combinator macros (`named!`, `alt!`, `ws!`, `tag!`, `one_of!`, `is_not!`,
`eof!`, `do_parse!`, `map!`, `map_res!`, `many0!`, `fold_many0!`) over a byte
slice, returning `IResult::Done(remaining, value)`, `IResult::Incomplete(needed)`
or `IResult::Error(kind)`.  We embed the input as `List Nat` (byte values) and
each nom combinator as a total function returning an explicit `IResult`,
following the nom 2/3 semantics:

  - `tag!(t)`: compares the first `min |input| |t|` bytes; mismatch is an
    error; a matching proper prefix of `t` at end of input is
    `Incomplete(Size |t|)`; a full match consumes `|t|` bytes.
  - `alpha`/`digit`/`alphanumeric`/`multispace`: `Incomplete(Unknown)` on
    empty input, error if the first byte does not satisfy the predicate,
    otherwise consume the maximal nonempty run (running to the end of input
    yields `Done`, not `Incomplete`; the repository's own test
    `test_parse_int` on b" 457" relies on this).
  - `one_of!`/`char!`/`anychar`: `Incomplete(Size 1)` on empty input,
    otherwise consume exactly one byte (`anychar` on `&[u8]` takes one byte).
  - `is_not!(set)`: error when the first byte is in the set, otherwise
    consume up to (not including) the first byte in the set; if no byte of
    the set occurs — including the vacuous case of empty input — the whole
    input is consumed with `Done`.
  - `not_line_ending`: consume up to the first `\r` or `\n`, possibly zero
    bytes, never failing.
  - `eof!()`: succeeds exactly on empty input, consuming nothing.
  - `ws!(p)` (whitespace separation with `sep!(eat_separator!(" \t\r\n"))`):
    eats any run (possibly empty) of spaces/tabs/CR/LF before each inner
    recognizer and after the whole parse; eating whitespace never fails.
    For `alt!` the separator is applied to each branch, which is equivalent
    to applying it once before the alternation.  For `delimited!` it is
    applied before each of the three components.
  - `alt!`: tries branches in order; an error moves to the next branch, but
    `Done` and `Incomplete` return immediately.
  - `map_res!`: a failing conversion function turns `Done` into an error.
  - `many0!`/`fold_many0!`: stop with `Done` when the remaining input is
    empty or the inner parser errors; propagate `Incomplete`; iterations
    must consume input.

Tokens carry their payloads as raw byte lists (`Vec<u8>` before the
`String::from_utf8` conversion in the source); the conversion itself is
modelled by the `validUtf8` check where the bytes are not already known to be
ASCII (only the string-literal recognizer can see non-ASCII payload bytes).
The integer payload is the parsed value of `str::parse::<i32>` on a run of
decimal digits, which fails (no wrap-around) above `i32::MAX = 2147483647`. -/

namespace Gentlemen

/-- The token type of src/lexer.rs (`enum Token`), with byte-list payloads for
`Ident`/`String`, the parsed non-negative 32-bit value for `Integer`, and the
raw byte for `Char` (nom's `anychar` on `&[u8]` casts one byte to `char`). -/
inductive Token : Type where
  | Equal | Greater | GreaterEqual | Lesser | LesserEqual | NotEqual
  | Assign | AddAssign | DivAssign | MultAssign | SubAssign
  | Minus | Percent | Plus | Slash | Star
  | CloseBrace | CloseIndex | CloseParen | OpenBrace | OpenBracket | OpenParen
  | If | ElseIf | Else | For | While
  | Char (b : Nat)
  | Comment
  | Eof
  | Ident (s : List Nat)
  | Integer (n : Nat)
  | String (s : List Nat)
deriving DecidableEq, Repr

/-- nom's `Needed`: how much more input an incomplete parse wants. -/
inductive Needed : Type where
  | unknown
  | size (n : Nat)
deriving DecidableEq, Repr

/-- The nom error kinds actually producible by the recognizers of
src/lexer.rs (the claims never inspect the kind, only error vs. not). -/
inductive ErrKind : Type where
  | Tag | Alpha | Digit | AlphaNumeric | MultiSpace | IsNot | OneOf
  | CharK | Eof | MapRes | Many0 | Alt
deriving DecidableEq, Repr

/-- nom 2/3's `IResult`: success with the unconsumed remainder, a request for
more input, or an error. -/
inductive IResult (α : Type) : Type where
  | done (rem : List Nat) (val : α)
  | incomplete (n : Needed)
  | error (k : ErrKind)
deriving DecidableEq, Repr

/-- Byte list of an ASCII string literal (all inputs in the claims are ASCII). -/
def bytes (s : String) : List Nat := s.data.map Char.toNat

/-- The whitespace set of nom's `eat_separator!(&b" \t\r\n"[..])` (used by
`ws!`) and of nom's `multispace`: space, tab, carriage return, line feed. -/
def isWs (b : Nat) : Bool := b = 32 || b = 9 || b = 13 || b = 10

/-- Eating leading whitespace (`eat_separator` / the net effect of
`many0!(multispace)`): never fails, consumes the maximal whitespace run. -/
def dropWs (l : List Nat) : List Nat := l.dropWhile isWs

/-- `is_alphabetic` of nom: ASCII A-Z or a-z. -/
def isAlphaByte (b : Nat) : Bool := (65 ≤ b && b ≤ 90) || (97 ≤ b && b ≤ 122)

/-- `is_digit` of nom: ASCII 0-9. -/
def isDigitByte (b : Nat) : Bool := 48 ≤ b && b ≤ 57

/-- `is_alphanumeric` of nom. -/
def isAlphanumByte (b : Nat) : Bool := isAlphaByte b || isDigitByte b

/-- nom's `tag!`: error on byte mismatch within the compared prefix,
`Incomplete(Size |t|)` when the input is a matching proper prefix of the tag,
otherwise consume the tag. -/
def tag (t l : List Nat) : IResult (List Nat) :=
  if l.take (min l.length t.length) = t.take (min l.length t.length) then
    if l.length < t.length then .incomplete (.size t.length)
    else .done (l.drop t.length) t
  else .error .Tag

/-- Shared shape of nom's `alpha`, `digit`, `alphanumeric` and `multispace`:
`Incomplete(Unknown)` on empty input, error when the first byte fails the
predicate, otherwise consume the maximal nonempty run (to the end of input
if necessary). -/
def takeWhile1 (p : Nat → Bool) (k : ErrKind) (l : List Nat) : IResult (List Nat) :=
  match l with
  | [] => .incomplete .unknown
  | b :: r => if p b then .done (r.dropWhile p) (b :: r.takeWhile p) else .error k

/-- nom's `alpha`. -/
def alpha : List Nat → IResult (List Nat) := takeWhile1 isAlphaByte .Alpha

/-- nom's `digit`. -/
def digit : List Nat → IResult (List Nat) := takeWhile1 isDigitByte .Digit

/-- nom's `alphanumeric`. -/
def alphanumeric : List Nat → IResult (List Nat) := takeWhile1 isAlphanumByte .AlphaNumeric

/-- nom's `is_not!`: error if the first byte is in `arr`, otherwise consume up
to the first byte in `arr`, or everything (vacuously on empty input) when no
byte of `arr` occurs. -/
def is_not (arr l : List Nat) : IResult (List Nat) :=
  match l.findIdx? (fun b => arr.contains b) with
  | some 0 => .error .IsNot
  | some n => .done (l.drop n) (l.take n)
  | none => .done (l.drop l.length) (l.take l.length)

/-- nom's `not_line_ending`: consume up to the first CR or LF (possibly
nothing), or the whole input when neither occurs; never fails. -/
def not_line_ending (l : List Nat) : IResult (List Nat) :=
  match l.findIdx? (fun b => b = 13 || b = 10) with
  | some n => .done (l.drop n) (l.take n)
  | none => .done (l.drop l.length) (l.take l.length)

/-- nom's `one_of!`: one byte from the given set. -/
def one_of (arr : List Nat) (l : List Nat) : IResult Nat :=
  match l with
  | [] => .incomplete (.size 1)
  | b :: r => if arr.contains b then .done r b else .error .OneOf

/-- nom's `char!(c)`: exactly the byte `c`. -/
def charP (c : Nat) (l : List Nat) : IResult Nat :=
  match l with
  | [] => .incomplete (.size 1)
  | b :: r => if b = c then .done r c else .error .CharK

/-- nom's `anychar` on bytes: any single byte. -/
def anychar (l : List Nat) : IResult Nat :=
  match l with
  | [] => .incomplete (.size 1)
  | b :: r => .done r b

/-- nom's `eof!()`: succeeds exactly at end of input. -/
def eofP (l : List Nat) : IResult (List Nat) :=
  if l.isEmpty then .done l l else .error .Eof

/-- RFC 3629 UTF-8 validity of a byte sequence, as checked by Rust's
`str::from_utf8` (used via `map_res!` in the `ident` and `string`
recognizers; only `string` can ever see non-ASCII bytes, `ident` payloads
are ASCII by construction). -/
def validUtf8 : List Nat → Bool
  | [] => true
  | b :: r =>
    if b ≤ 127 then validUtf8 r
    else if 194 ≤ b && b ≤ 223 then
      match r with
      | c1 :: r1 => (128 ≤ c1 && c1 ≤ 191) && validUtf8 r1
      | [] => false
    else if b = 224 then
      match r with
      | c1 :: c2 :: r2 => (160 ≤ c1 && c1 ≤ 191) && (128 ≤ c2 && c2 ≤ 191) && validUtf8 r2
      | _ => false
    else if (225 ≤ b && b ≤ 236) || 238 ≤ b && b ≤ 239 then
      match r with
      | c1 :: c2 :: r2 => (128 ≤ c1 && c1 ≤ 191) && (128 ≤ c2 && c2 ≤ 191) && validUtf8 r2
      | _ => false
    else if b = 237 then
      match r with
      | c1 :: c2 :: r2 => (128 ≤ c1 && c1 ≤ 159) && (128 ≤ c2 && c2 ≤ 191) && validUtf8 r2
      | _ => false
    else if b = 240 then
      match r with
      | c1 :: c2 :: c3 :: r3 =>
        (144 ≤ c1 && c1 ≤ 191) && (128 ≤ c2 && c2 ≤ 191) && (128 ≤ c3 && c3 ≤ 191) && validUtf8 r3
      | _ => false
    else if 241 ≤ b && b ≤ 243 then
      match r with
      | c1 :: c2 :: c3 :: r3 =>
        (128 ≤ c1 && c1 ≤ 191) && (128 ≤ c2 && c2 ≤ 191) && (128 ≤ c3 && c3 ≤ 191) && validUtf8 r3
      | _ => false
    else if b = 244 then
      match r with
      | c1 :: c2 :: c3 :: r3 =>
        (128 ≤ c1 && c1 ≤ 143) && (128 ≤ c2 && c2 ≤ 191) && (128 ≤ c3 && c3 ≤ 191) && validUtf8 r3
      | _ => false
    else false

/-- `str::parse::<i32>` applied to a nonempty run of ASCII decimal digits:
the value of the digits, failing (no wrap-around) above `i32::MAX`. -/
def parse_i32 (ds : List Nat) : Option Nat :=
  let v := ds.foldl (fun acc d => acc * 10 + (d - 48)) 0
  if v ≤ 2147483647 then some v else none

/-- `file_end` (src/lexer.rs lines 235-240): `ws!(eof!())` mapped to
`Token::Eof`. -/
def file_end (l : List Nat) : IResult Token :=
  match eofP (dropWs l) with
  | .done rem _ => .done (dropWs rem) Token.Eof
  | .incomplete n => .incomplete n
  | .error k => .error k

/-- `string` (src/lexer.rs lines 205-216):
`ws!(delimited!(char!('"'), is_not!("\""), char!('"')))` through
`String::from_utf8`, to `Token::String`.  The `ws!` separator is applied
before each component of the `delimited!` and after the whole parse. -/
def string (l : List Nat) : IResult Token :=
  match charP 34 (dropWs l) with
  | .done l1 _ =>
    match is_not (bytes "\"") (dropWs l1) with
    | .done l2 content =>
      match charP 34 (dropWs l2) with
      | .done l3 _ =>
        if validUtf8 content then .done (dropWs l3) (Token.String content)
        else .error .MapRes
      | .incomplete n => .incomplete n
      | .error k => .error k
    | .incomplete n => .incomplete n
    | .error k => .error k
  | .incomplete n => .incomplete n
  | .error k => .error k

/-- `delimiter` (src/lexer.rs lines 108-120): `ws!(one_of!("(){}[]"))` mapped
to the delimiter tokens (match arms in source order). -/
def delimiter (l : List Nat) : IResult Token :=
  match one_of (bytes "(){}[]") (dropWs l) with
  | .done rem c => .done (dropWs rem)
      (if c = 123 then Token.OpenBrace
       else if c = 125 then Token.CloseBrace
       else if c = 40 then Token.OpenParen
       else if c = 41 then Token.CloseParen
       else if c = 91 then Token.OpenBracket
       else Token.CloseIndex)
  | .incomplete n => .incomplete n
  | .error k => .error k

/-- An `alt!` over branches of the form `tag!(literal)` mapped to a fixed
token, as produced by `ws!` wrapping (the separator is eaten before each
branch — equivalently once before the alternation, since eating is
deterministic — and the trailing eat is applied to each successful branch):
an error tries the next branch, `Done` and `Incomplete` return immediately,
and exhausting every branch is nom's `ErrorKind::Alt` error. -/
def tag_alt (branches : List (List Nat × Token)) (l1 : List Nat) : IResult Token :=
  match branches with
  | [] => .error .Alt
  | (t, tok) :: rest =>
    match tag t l1 with
    | .done rem _ => .done (dropWs rem) tok
    | .incomplete n => .incomplete n
    | .error _ => tag_alt rest l1

/-- `keyword` (src/lexer.rs lines 142-160): `ws!` over
`alt!(tag!("if") | tag!("else if") | tag!("else") | tag!("for") | tag!("while"))`,
each matched literal mapped to its keyword token by the `match word` of the
source. -/
def keyword (l : List Nat) : IResult Token :=
  tag_alt
    [(bytes "if", Token.If), (bytes "else if", Token.ElseIf), (bytes "else", Token.Else),
     (bytes "for", Token.For), (bytes "while", Token.While)]
    (dropWs l)

/-- Identifier continuation bytes: the `fold_many0!(alt!(alphanumeric | tag!("_")))`
loop of `ident` extends the identifier with maximal alphanumeric runs and
single underscores. -/
def identChar (b : Nat) : Bool := isAlphanumByte b || b = 95

/-- `ident` (src/lexer.rs lines 162-178): `many0!(multispace)` (which eats the
maximal leading whitespace run and never fails), then `alpha`, then
`fold_many0!(alt!(alphanumeric | tag!("_")))` accumulated onto the alpha
prefix.  The fold's net effect is to consume the maximal run of
alphanumeric-or-underscore bytes: each iteration consumes at least one byte,
the fold stops with `Done` on an error or at end of input, and neither
`alphanumeric` nor `tag!("_")` can return `Incomplete` on the nonempty
remainders the fold inspects.  The accumulated bytes are ASCII, so the
`String::from_utf8` of the source cannot fail and is not modelled here.
There is no `ws!`, so no trailing whitespace is eaten. -/
def ident (l : List Nat) : IResult Token :=
  match alpha (dropWs l) with
  | .done l2 init => .done (l2.dropWhile identChar) (Token.Ident (init ++ l2.takeWhile identChar))
  | .incomplete n => .incomplete n
  | .error k => .error k

/-- `comment` (src/lexer.rs lines 242-247): `preceded!(ws!(tag!("//")), not_line_ending)`
to `Token::Comment`; the `ws!` also eats whitespace directly after `//`. -/
def comment (l : List Nat) : IResult Token :=
  match tag (bytes "//") (dropWs l) with
  | .done rem _ =>
    match not_line_ending (dropWs rem) with
    | .done rem2 _ => .done rem2 Token.Comment
    | .incomplete n => .incomplete n
    | .error k => .error k
  | .incomplete n => .incomplete n
  | .error k => .error k

/-- `comp_op` (src/lexer.rs lines 180-203): `ws!` over
`alt!(tag!("<=") | tag!(">=") | tag!("!=") | tag!("==") | tag!("<") | tag!(">"))`
mapped to the comparison tokens. -/
def comp_op (l : List Nat) : IResult Token :=
  tag_alt
    [(bytes "<=", Token.LesserEqual), (bytes ">=", Token.GreaterEqual),
     (bytes "!=", Token.NotEqual), (bytes "==", Token.Equal),
     (bytes "<", Token.Lesser), (bytes ">", Token.Greater)]
    (dropWs l)

/-- `assign_op` (src/lexer.rs lines 218-233): `ws!` over
`alt!(tag!(":=") | tag!("+=") | tag!("-=") | tag!("*=") | tag!("/="))`
mapped to the assignment tokens. -/
def assign_op (l : List Nat) : IResult Token :=
  tag_alt
    [(bytes ":=", Token.Assign), (bytes "+=", Token.AddAssign),
     (bytes "-=", Token.SubAssign), (bytes "*=", Token.MultAssign),
     (bytes "/=", Token.DivAssign)]
    (dropWs l)

/-- `arith_op` (src/lexer.rs lines 122-133): `ws!(one_of!("+-*/%"))` mapped to
the arithmetic tokens (match arms in source order). -/
def arith_op (l : List Nat) : IResult Token :=
  match one_of (bytes "+-*/%") (dropWs l) with
  | .done rem c => .done (dropWs rem)
      (if c = 43 then Token.Plus
       else if c = 45 then Token.Minus
       else if c = 42 then Token.Star
       else if c = 47 then Token.Slash
       else Token.Percent)
  | .incomplete n => .incomplete n
  | .error k => .error k

/-- `integer` (src/lexer.rs lines 249-260): `ws!(digit)` through
`str::from_utf8` (always succeeds on digits) and `str::parse::<i32>`, to
`Token::Integer`; a failing parse (overflow) is an error via `map_res!`. -/
def integer (l : List Nat) : IResult Token :=
  match digit (dropWs l) with
  | .done rem ds =>
    match parse_i32 ds with
    | some v => .done (dropWs rem) (Token.Integer v)
    | none => .error .MapRes
  | .incomplete n => .incomplete n
  | .error k => .error k

/-- `any` (src/lexer.rs lines 135-140): `ws!(anychar)` to `Token::Char`. -/
def any (l : List Nat) : IResult Token :=
  match anychar (dropWs l) with
  | .done rem c => .done (dropWs rem) (Token.Char c)
  | .incomplete n => .incomplete n
  | .error k => .error k

/-- nom's `alt!` combining step: an error tries the next branch; `Done` and
`Incomplete` return immediately. -/
def altP (a b : List Nat → IResult Token) (l : List Nat) : IResult Token :=
  match a l with
  | .done rem t => .done rem t
  | .incomplete n => .incomplete n
  | .error _ => b l

/-- `get_token` (src/lexer.rs lines 92-106): the priority-ordered alternation
`alt!(file_end | string | delimiter | keyword | ident | comment | comp_op |
assign_op | arith_op | integer | any)`. -/
def get_token : List Nat → IResult Token :=
  altP file_end (altP string (altP delimiter (altP keyword (altP ident
    (altP comment (altP comp_op (altP assign_op (altP arith_op
      (altP integer any)))))))))

/-- The error type of `Lexer::generate_tokens` (src/lexer.rs lines 63-89):
the source formats `IResult::Incomplete(needed)` into an "Incomplete
parsing, .. bytes missing" message and `IResult::Error(e)` into a "Parsing
error: .." message; we keep the two cases structured. -/
inductive LexError : Type where
  | incomplete (n : Needed)
  | parseError (k : ErrKind)
deriving DecidableEq, Repr

/-- The result of `Lexer::generate_tokens`: `Result<Vec<Token>>`. -/
inductive LexResult : Type where
  | ok (ts : List Token)
  | error (e : LexError)
deriving DecidableEq, Repr

/-- The loop of `Lexer::generate_tokens` (src/lexer.rs lines 63-89), with an
explicit iteration budget (`fuel`) standing in for the source's unbounded
`loop`: each iteration calls `get_token` on the remaining buffer, stops
without appending on `Token::Eof`, pushes any other token (including
`Token::Comment` — the source has no filter), and aborts with an error on
`Incomplete` or `Error`.  `none` means the budget ran out; the theorem on
this definition shows that a budget of `l.length + 1` always suffices, which
is the termination argument for the source's loop. -/
def generate_tokens_from (fuel : Nat) (l : List Nat) : Option LexResult :=
  match fuel with
  | 0 => none
  | fuel + 1 =>
    match get_token l with
    | .done rem tok =>
      if tok = Token.Eof then some (.ok [])
      else
        match generate_tokens_from fuel rem with
        | some (.ok ts) => some (.ok (tok :: ts))
        | some (.error e) => some (.error e)
        | none => none
    | .incomplete n => some (.error (.incomplete n))
    | .error k => some (.error (.parseError k))

/-- `Lexer::generate_tokens` (src/lexer.rs lines 63-89) on a whole input
buffer.  The budget `l.length + 1` is sufficient because every successful
non-Eof `get_token` strictly shrinks the buffer (proved below); the
default value of `getD` is unreachable. -/
def generate_tokens (l : List Nat) : LexResult :=
  (generate_tokens_from (l.length + 1) l).getD (.error (.parseError .Alt))

/-- Whitespace eating only ever removes a prefix: the result is a suffix. -/
theorem dropWs_suffix (l : List Nat) : dropWs l <:+ l := List.dropWhile_suffix isWs

/-- Whitespace eating never grows the buffer. -/
theorem dropWs_length_le (l : List Nat) : (dropWs l).length ≤ l.length :=
  (dropWs_suffix l).length_le

/-- A successful `one_of!` consumed exactly its one matched byte. -/
theorem one_of_done {arr l rem : List Nat} {c : Nat} (h : one_of arr l = .done rem c) :
    l = c :: rem := by
  cases l with
  | nil => simp [one_of] at h
  | cons b r =>
    simp only [one_of] at h
    by_cases hb : arr.contains b
    · rw [if_pos hb] at h
      cases h
      rfl
    · rw [if_neg hb] at h
      cases h

/-- A successful `char!` consumed exactly its one byte. -/
theorem charP_done {c : Nat} {l rem : List Nat} {v : Nat} (h : charP c l = .done rem v) :
    l = c :: rem := by
  cases l with
  | nil => simp [charP] at h
  | cons b r =>
    simp only [charP] at h
    by_cases hb : b = c
    · rw [if_pos hb] at h
      cases h
      rw [hb]
    · rw [if_neg hb] at h
      cases h

/-- A successful `anychar` consumed exactly one byte. -/
theorem anychar_done {l rem : List Nat} {v : Nat} (h : anychar l = .done rem v) :
    l = v :: rem := by
  cases l with
  | nil => simp [anychar] at h
  | cons b r =>
    simp only [anychar] at h
    cases h
    rfl

/-- A successful `tag!` consumed exactly the tag. -/
theorem tag_done {t l rem v : List Nat} (h : tag t l = .done rem v) :
    rem = l.drop t.length ∧ t.length ≤ l.length := by
  simp only [tag] at h
  by_cases h1 : l.take (min l.length t.length) = t.take (min l.length t.length)
  · rw [if_pos h1] at h
    by_cases h2 : l.length < t.length
    · rw [if_pos h2] at h
      cases h
    · rw [if_neg h2] at h
      cases h
      exact ⟨rfl, Nat.le_of_not_lt h2⟩
  · rw [if_neg h1] at h
    cases h

/-- A successful `alpha`/`digit`/`alphanumeric`/`multispace` consumed at least
one byte, and the remainder is a suffix. -/
theorem takeWhile1_done {p : Nat → Bool} {k : ErrKind} {l rem v : List Nat}
    (h : takeWhile1 p k l = .done rem v) : rem.length < l.length ∧ rem <:+ l := by
  cases l with
  | nil => simp [takeWhile1] at h
  | cons b r =>
    simp only [takeWhile1] at h
    by_cases hb : p b
    · rw [if_pos hb] at h
      cases h
      refine ⟨Nat.lt_succ_of_le (List.dropWhile_suffix p).length_le, ?_⟩
      exact (List.dropWhile_suffix p).trans (List.suffix_cons b r)
    · rw [if_neg hb] at h
      cases h

/-- A successful `is_not!` leaves a (possibly improper) suffix. -/
theorem is_not_done {arr l rem v : List Nat} (h : is_not arr l = .done rem v) :
    rem.length ≤ l.length ∧ rem <:+ l := by
  unfold is_not at h
  split at h
  · cases h
  · cases h
    exact ⟨(List.drop_suffix _ _).length_le, List.drop_suffix _ _⟩
  · cases h
    exact ⟨(List.drop_suffix _ _).length_le, List.drop_suffix _ _⟩

/-- A successful `not_line_ending` leaves a (possibly improper) suffix. -/
theorem not_line_ending_done {l rem v : List Nat} (h : not_line_ending l = .done rem v) :
    rem.length ≤ l.length ∧ rem <:+ l := by
  unfold not_line_ending at h
  split at h
  · cases h
    exact ⟨(List.drop_suffix _ _).length_le, List.drop_suffix _ _⟩
  · cases h
    exact ⟨(List.drop_suffix _ _).length_le, List.drop_suffix _ _⟩

/-- `eof!` succeeds only on the empty buffer and consumes nothing. -/
theorem eofP_done {l rem v : List Nat} (h : eofP l = .done rem v) : l = [] ∧ rem = [] := by
  unfold eofP at h
  split at h
  · next he =>
    cases h
    have : l = [] := by simpa using he
    exact ⟨this, this⟩
  · cases h

/-- Strict consumption relative to the pre-whitespace buffer: whatever remains
after eating whitespace, consuming one byte `c`, and eating whitespace again
is a strictly shorter suffix of the original buffer. -/
theorem cons_branch_shrink {l r : List Nat} {c : Nat} (h : dropWs l = c :: r) :
    (dropWs r).length < l.length ∧ dropWs r <:+ l := by
  have hsuf : dropWs r <:+ l :=
    ((dropWs_suffix r).trans (List.suffix_cons c r)).trans (h ▸ dropWs_suffix l)
  refine ⟨?_, hsuf⟩
  have h1 := dropWs_length_le r
  have h2 := dropWs_length_le l
  have h3 : (dropWs l).length = r.length + 1 := by rw [h]; rfl
  omega

/-- A successful nonempty `tag!`, followed by the trailing whitespace eat,
leaves a strictly shorter suffix. -/
theorem tag_strict {t l1 r v : List Nat} (ht : t ≠ [])
    (h : tag t l1 = .done r v) :
    (dropWs r).length < l1.length ∧ dropWs r <:+ l1 := by
  obtain ⟨hrem, hle⟩ := tag_done h
  have htl : 0 < t.length := List.length_pos.mpr ht
  have hsub : r <:+ l1 := by
    rw [hrem]
    exact List.drop_suffix _ _
  refine ⟨?_, (dropWs_suffix r).trans hsub⟩
  have h1 : r.length = l1.length - t.length := by
    rw [hrem, List.length_drop]
  have h2 := dropWs_length_le r
  omega

/-- A successful `tag_alt` over nonempty literals leaves a strictly shorter
suffix. -/
theorem tag_alt_shrink {branches : List (List Nat × Token)} {l1 rem : List Nat} {tok : Token}
    (hb : ∀ p ∈ branches, p.1 ≠ ([] : List Nat))
    (h : tag_alt branches l1 = .done rem tok) :
    rem.length < l1.length ∧ rem <:+ l1 := by
  induction branches with
  | nil => simp [tag_alt] at h
  | cons p rest ih =>
    obtain ⟨t, tk⟩ := p
    cases h1 : tag t l1 with
    | done r v =>
      simp only [tag_alt, h1] at h
      have ht : t ≠ [] := hb (t, tk) (List.mem_cons_self _ _)
      cases h
      exact tag_strict ht h1
    | incomplete n =>
      simp only [tag_alt, h1] at h
      cases h
    | error k =>
      simp only [tag_alt, h1] at h
      exact ih (fun q hq => hb q (List.mem_cons_of_mem _ hq)) h

/-- A successful `file_end` consumed the whole (all-whitespace) buffer and
produced `Eof`. -/
theorem file_end_done {l rem : List Nat} {t : Token} (h : file_end l = .done rem t) :
    rem = [] ∧ t = Token.Eof := by
  cases h1 : eofP (dropWs l) with
  | done r v =>
    simp only [file_end, h1] at h
    obtain ⟨-, hr⟩ := eofP_done h1
    cases h
    subst hr
    exact ⟨rfl, rfl⟩
  | incomplete n =>
    simp only [file_end, h1] at h
    cases h
  | error k =>
    simp only [file_end, h1] at h
    cases h

/-- A successful `string` consumed at least its two quotes: strict shrink. -/
theorem string_shrink {l rem : List Nat} {t : Token} (h : string l = .done rem t) :
    rem.length < l.length ∧ rem <:+ l := by
  cases h1 : charP 34 (dropWs l) with
  | done l1 v1 =>
    cases h2 : is_not (bytes "\"") (dropWs l1) with
    | done l2 content =>
      cases h3 : charP 34 (dropWs l2) with
      | done l3 v3 =>
        simp only [string, h1, h2, h3] at h
        by_cases hv : validUtf8 content
        · rw [if_pos hv] at h
          cases h
          have e1 := charP_done h1
          have e2 := is_not_done h2
          have e3 := charP_done h3
          have s1 : dropWs l3 <:+ l2 :=
            ((dropWs_suffix l3).trans (List.suffix_cons 34 l3)).trans (e3 ▸ dropWs_suffix l2)
          have s2 : l2 <:+ l1 := e2.2.trans (dropWs_suffix l1)
          have s3 : l1 <:+ l := (List.suffix_cons 34 l1).trans (e1 ▸ dropWs_suffix l)
          refine ⟨?_, (s1.trans s2).trans s3⟩
          have n1 := dropWs_length_le l3
          have n2 : (dropWs l2).length = l3.length + 1 := by rw [e3]; rfl
          have n3 := dropWs_length_le l2
          have n4 := e2.1
          have n5 := dropWs_length_le l1
          have n6 : (dropWs l).length = l1.length + 1 := by rw [e1]; rfl
          have n7 := dropWs_length_le l
          omega
        · rw [if_neg hv] at h
          cases h
      | incomplete n =>
        simp only [string, h1, h2, h3] at h
        cases h
      | error k =>
        simp only [string, h1, h2, h3] at h
        cases h
    | incomplete n =>
      simp only [string, h1, h2] at h
      cases h
    | error k =>
      simp only [string, h1, h2] at h
      cases h
  | incomplete n =>
    simp only [string, h1] at h
    cases h
  | error k =>
    simp only [string, h1] at h
    cases h

/-- A successful `delimiter` consumed its one delimiter byte: strict shrink. -/
theorem delimiter_shrink {l rem : List Nat} {t : Token} (h : delimiter l = .done rem t) :
    rem.length < l.length ∧ rem <:+ l := by
  cases h1 : one_of (bytes "(){}[]") (dropWs l) with
  | done r c =>
    simp only [delimiter, h1] at h
    cases h
    exact cons_branch_shrink (one_of_done h1)
  | incomplete n =>
    simp only [delimiter, h1] at h
    cases h
  | error k =>
    simp only [delimiter, h1] at h
    cases h

/-- A successful `arith_op` consumed its one operator byte: strict shrink. -/
theorem arith_op_shrink {l rem : List Nat} {t : Token} (h : arith_op l = .done rem t) :
    rem.length < l.length ∧ rem <:+ l := by
  cases h1 : one_of (bytes "+-*/%") (dropWs l) with
  | done r c =>
    simp only [arith_op, h1] at h
    cases h
    exact cons_branch_shrink (one_of_done h1)
  | incomplete n =>
    simp only [arith_op, h1] at h
    cases h
  | error k =>
    simp only [arith_op, h1] at h
    cases h

/-- A successful `any` consumed its one byte: strict shrink. -/
theorem any_shrink {l rem : List Nat} {t : Token} (h : any l = .done rem t) :
    rem.length < l.length ∧ rem <:+ l := by
  cases h1 : anychar (dropWs l) with
  | done r c =>
    simp only [any, h1] at h
    cases h
    exact cons_branch_shrink (anychar_done h1)
  | incomplete n =>
    simp only [any, h1] at h
    cases h
  | error k =>
    simp only [any, h1] at h
    cases h

/-- A successful `keyword` consumed a nonempty keyword literal: strict shrink. -/
theorem keyword_shrink {l rem : List Nat} {t : Token} (h : keyword l = .done rem t) :
    rem.length < l.length ∧ rem <:+ l := by
  unfold keyword at h
  obtain ⟨ha, hs⟩ := tag_alt_shrink (by decide) h
  exact ⟨lt_of_lt_of_le ha (dropWs_length_le l), hs.trans (dropWs_suffix l)⟩

/-- A successful `comp_op` consumed a nonempty operator literal: strict shrink. -/
theorem comp_op_shrink {l rem : List Nat} {t : Token} (h : comp_op l = .done rem t) :
    rem.length < l.length ∧ rem <:+ l := by
  unfold comp_op at h
  obtain ⟨ha, hs⟩ := tag_alt_shrink (by decide) h
  exact ⟨lt_of_lt_of_le ha (dropWs_length_le l), hs.trans (dropWs_suffix l)⟩

/-- A successful `assign_op` consumed a nonempty operator literal: strict shrink. -/
theorem assign_op_shrink {l rem : List Nat} {t : Token} (h : assign_op l = .done rem t) :
    rem.length < l.length ∧ rem <:+ l := by
  unfold assign_op at h
  obtain ⟨ha, hs⟩ := tag_alt_shrink (by decide) h
  exact ⟨lt_of_lt_of_le ha (dropWs_length_le l), hs.trans (dropWs_suffix l)⟩

/-- A successful `ident` consumed at least one alphabetic byte: strict shrink. -/
theorem ident_shrink {l rem : List Nat} {t : Token} (h : ident l = .done rem t) :
    rem.length < l.length ∧ rem <:+ l := by
  cases h1 : alpha (dropWs l) with
  | done l2 init =>
    simp only [ident, h1] at h
    cases h
    unfold alpha at h1
    obtain ⟨ha, hs⟩ := takeWhile1_done h1
    refine ⟨?_, ((List.dropWhile_suffix identChar).trans hs).trans (dropWs_suffix l)⟩
    have n1 : (l2.dropWhile identChar).length ≤ l2.length :=
      (List.dropWhile_suffix identChar).length_le
    have n2 := dropWs_length_le l
    omega
  | incomplete n =>
    simp only [ident, h1] at h
    cases h
  | error k =>
    simp only [ident, h1] at h
    cases h

/-- A successful `comment` consumed at least the two slashes: strict shrink. -/
theorem comment_shrink {l rem : List Nat} {t : Token} (h : comment l = .done rem t) :
    rem.length < l.length ∧ rem <:+ l := by
  cases h1 : tag (bytes "//") (dropWs l) with
  | done r1 v1 =>
    cases h2 : not_line_ending (dropWs r1) with
    | done r2 v2 =>
      simp only [comment, h1, h2] at h
      cases h
      obtain ⟨ha, hs⟩ := tag_strict (by decide) h1
      obtain ⟨hb1, hb2⟩ := not_line_ending_done h2
      refine ⟨?_, (hb2.trans hs).trans (dropWs_suffix l)⟩
      have h3 := dropWs_length_le l
      omega
    | incomplete n =>
      simp only [comment, h1, h2] at h
      cases h
    | error k =>
      simp only [comment, h1, h2] at h
      cases h
  | incomplete n =>
    simp only [comment, h1] at h
    cases h
  | error k =>
    simp only [comment, h1] at h
    cases h

/-- A successful `integer` consumed at least one digit: strict shrink. -/
theorem integer_shrink {l rem : List Nat} {t : Token} (h : integer l = .done rem t) :
    rem.length < l.length ∧ rem <:+ l := by
  cases h1 : digit (dropWs l) with
  | done r ds =>
    cases h2 : parse_i32 ds with
    | some v =>
      simp only [integer, h1, h2] at h
      cases h
      unfold digit at h1
      obtain ⟨ha, hs⟩ := takeWhile1_done h1
      refine ⟨?_, ((dropWs_suffix r).trans hs).trans (dropWs_suffix l)⟩
      have n1 := dropWs_length_le r
      have n2 := dropWs_length_le l
      omega
    | none =>
      simp only [integer, h1, h2] at h
      cases h
  | incomplete n =>
    simp only [integer, h1] at h
    cases h
  | error k =>
    simp only [integer, h1] at h
    cases h

/-- A `Done` of `alt!` is a `Done` of one of its two arms. -/
theorem altP_done {a b : List Nat → IResult Token} {l rem : List Nat} {t : Token}
    (h : altP a b l = .done rem t) : a l = .done rem t ∨ b l = .done rem t := by
  cases h1 : a l with
  | done r v =>
    simp only [altP, h1] at h
    exact Or.inl h
  | incomplete n =>
    simp only [altP, h1] at h
    cases h
  | error k =>
    simp only [altP, h1] at h
    exact Or.inr h

/-- Case analysis on a successful `get_token`: either `file_end` fired (the
buffer was all whitespace, the token is `Eof` and nothing remains), or one of
the ten consuming recognizers fired and the remaining buffer is a strictly
shorter suffix. -/
theorem get_token_done {l rem : List Nat} {t : Token} (h : get_token l = .done rem t) :
    (t = Token.Eof ∧ rem = []) ∨ (rem.length < l.length ∧ rem <:+ l) := by
  unfold get_token at h
  rcases altP_done h with h | h
  · obtain ⟨h1, h2⟩ := file_end_done h
    exact Or.inl ⟨h2, h1⟩
  rcases altP_done h with h | h
  · exact Or.inr (string_shrink h)
  rcases altP_done h with h | h
  · exact Or.inr (delimiter_shrink h)
  rcases altP_done h with h | h
  · exact Or.inr (keyword_shrink h)
  rcases altP_done h with h | h
  · exact Or.inr (ident_shrink h)
  rcases altP_done h with h | h
  · exact Or.inr (comment_shrink h)
  rcases altP_done h with h | h
  · exact Or.inr (comp_op_shrink h)
  rcases altP_done h with h | h
  · exact Or.inr (assign_op_shrink h)
  rcases altP_done h with h | h
  · exact Or.inr (arith_op_shrink h)
  rcases altP_done h with h | h
  · exact Or.inr (integer_shrink h)
  · exact Or.inr (any_shrink h)

/-- A fuel budget exceeding the buffer length never runs out: this is the
termination argument for the `loop` of `Lexer::generate_tokens`. -/
theorem generate_tokens_from_isSome {fuel : Nat} : ∀ {l : List Nat}, l.length < fuel →
    (generate_tokens_from fuel l).isSome = true := by
  induction fuel with
  | zero =>
    intro l hl
    omega
  | succ f ih =>
    intro l hl
    cases h : get_token l with
    | done rem tok =>
      by_cases htok : tok = Token.Eof
      · simp [generate_tokens_from, h, htok]
      · have hlt : rem.length < l.length := by
          rcases get_token_done h with ⟨h1, -⟩ | ⟨h1, -⟩
          · exact absurd h1 htok
          · exact h1
        have hsome := ih (show rem.length < f by omega)
        cases h2 : generate_tokens_from f rem with
        | none =>
          rw [h2] at hsome
          simp at hsome
        | some r =>
          cases r with
          | ok ts => simp [generate_tokens_from, h, htok, h2]
          | error e => simp [generate_tokens_from, h, htok, h2]
    | incomplete n => simp [generate_tokens_from, h]
    | error k => simp [generate_tokens_from, h]

/-- The loop only pushes tokens it matched as non-`Eof`: `Eof` never appears
in a successful output, at any fuel. -/
theorem generate_tokens_from_no_eof : ∀ (fuel : Nat) {l : List Nat} {ts : List Token},
    generate_tokens_from fuel l = some (.ok ts) → Token.Eof ∉ ts := by
  intro fuel
  induction fuel with
  | zero =>
    intro l ts h
    simp [generate_tokens_from] at h
  | succ f ih =>
    intro l ts h
    cases hg : get_token l with
    | done rem tok =>
      simp only [generate_tokens_from, hg] at h
      by_cases htok : tok = Token.Eof
      · rw [if_pos htok] at h
        cases h
        simp
      · rw [if_neg htok] at h
        cases h2 : generate_tokens_from f rem with
        | none =>
          rw [h2] at h
          cases h
        | some r =>
          cases r with
          | ok ts2 =>
            rw [h2] at h
            cases h
            intro hmem
            rcases List.mem_cons.mp hmem with h3 | h3
            · exact htok h3.symm
            · exact ih h2 h3
          | error e =>
            rw [h2] at h
            cases h
    | incomplete n => simp [generate_tokens_from, hg] at h
    | error k => simp [generate_tokens_from, hg] at h

/-- On an all-whitespace buffer the very first `get_token` is `Eof` and the
loop stops with an empty output. -/
theorem generate_tokens_ws_only {l : List Nat} (h : ∀ b ∈ l, isWs b) :
    generate_tokens l = .ok [] := by
  have hdrop : dropWs l = [] := List.dropWhile_eq_nil_iff.mpr h
  have hfe : file_end l = .done [] Token.Eof := by
    unfold file_end
    rw [hdrop]
    rfl
  have hgt : get_token l = .done [] Token.Eof := by
    simp only [get_token, altP, hfe]
  simp [generate_tokens, generate_tokens_from, hgt]

/-- Replications of the unit tests of src/lexer.rs (`mod tests`), validating
the embedding: `test_file_end`. -/
theorem source_test_file_end : get_token (bytes "  ") = .done [] Token.Eof := by decide

/-- Replication of `test_parse_keyword` (through the whole tokenizer). -/
theorem source_test_parse_keyword :
    generate_tokens (bytes " if else if else for while") =
      .ok [Token.If, Token.ElseIf, Token.Else, Token.For, Token.While] := by decide

/-- Replication of `test_parse_delimiter`. -/
theorem source_test_parse_delimiter :
    generate_tokens (bytes " () [] {} ") =
      .ok [Token.OpenParen, Token.CloseParen, Token.OpenBracket, Token.CloseIndex,
           Token.OpenBrace, Token.CloseBrace] := by decide

/-- Replication of `test_parse_ident`. -/
theorem source_test_parse_ident :
    get_token (bytes " name num_rows_10 ") =
        .done (bytes " num_rows_10 ") (Token.Ident (bytes "name")) ∧
    get_token (bytes " num_rows_10 ") = .done (bytes " ") (Token.Ident (bytes "num_rows_10")) := by
  constructor
  · decide
  · decide

/-- Replication of `test_parse_arithmetic_operator`. -/
theorem source_test_parse_arith :
    generate_tokens (bytes " + - * / %") =
      .ok [Token.Plus, Token.Minus, Token.Star, Token.Slash, Token.Percent] := by decide

/-- Replication of `test_parse_string`. -/
theorem source_test_parse_string :
    get_token (bytes " \"Hello friend\"") = .done [] (Token.String (bytes "Hello friend")) := by
  decide

/-- Replication of `test_parse_int`. -/
theorem source_test_parse_int : get_token (bytes " 457") = .done [] (Token.Integer 457) := by
  decide

/-- Replication of `test_parse_assign_operator`. -/
theorem source_test_parse_assign :
    generate_tokens (bytes " := += -= *= /=") =
      .ok [Token.Assign, Token.AddAssign, Token.SubAssign, Token.MultAssign,
           Token.DivAssign] := by decide

/-- Replication of `test_parse_comparison_operator`. -/
theorem source_test_parse_comparison :
    generate_tokens (bytes " < > <= >= == != ") =
      .ok [Token.Lesser, Token.Greater, Token.LesserEqual, Token.GreaterEqual,
           Token.Equal, Token.NotEqual] := by decide

/-- Replication of `test_parse_comment`. -/
theorem source_test_parse_comment :
    get_token (bytes " // hello there!!\n") = .done (bytes "\n") Token.Comment := by decide

/-- The spec's catch-all test: "@" yields a `Char` token, never a failure. -/
theorem source_spec_at_sign : generate_tokens (bytes "@") = .ok [Token.Char 64] := by decide

/-- Claim C1, counterexample: comment lexemes do NOT contribute zero tokens.
Tokenizing the bytes of "x := 1 // comment\ny := 2" puts a `Comment` token
in the output (the `match token` of `generate_tokens` pushes every non-`Eof`
token, `Token::Comment` included), so the result differs from the claimed
[Ident("x"), Assign, Integer(1), Ident("y"), Assign, Integer(2)]. -/
theorem C1_counterexample :
    generate_tokens (bytes "x := 1 // comment\ny := 2") =
      .ok [Token.Ident (bytes "x"), Token.Assign, Token.Integer 1, Token.Comment,
           Token.Ident (bytes "y"), Token.Assign, Token.Integer 2] ∧
    LexResult.ok [Token.Ident (bytes "x"), Token.Assign, Token.Integer 1, Token.Comment,
           Token.Ident (bytes "y"), Token.Assign, Token.Integer 2] ≠
      .ok [Token.Ident (bytes "x"), Token.Assign, Token.Integer 1,
           Token.Ident (bytes "y"), Token.Assign, Token.Integer 2] := by
  constructor
  · decide
  · decide

/-- Claim C1, amended: comment lexemes (`//` through end of line) are
recognized and contribute exactly one `Comment` token to the output of
`generate_tokens`; tokenizing the bytes of "x := 1 // comment\ny := 2"
yields [Ident("x"), Assign, Integer(1), Comment, Ident("y"), Assign,
Integer(2)], with the comment present as a `Comment` token. -/
theorem C1_theorem :
    generate_tokens (bytes "x := 1 // comment\ny := 2") =
      .ok [Token.Ident (bytes "x"), Token.Assign, Token.Integer 1, Token.Comment,
           Token.Ident (bytes "y"), Token.Assign, Token.Integer 2] ∧
    Token.Comment ∈ [Token.Ident (bytes "x"), Token.Assign, Token.Integer 1, Token.Comment,
           Token.Ident (bytes "y"), Token.Assign, Token.Integer 2] := by
  constructor
  · decide
  · decide

/-- Claim C2, counterexample: tokenizing "elsewhere" does NOT yield
[Ident("elsewhere")] but exactly the [Else, Ident("where")] the claim rules
out: `keyword` is tried before `ident` in `get_token` and its `tag!("else")`
matches the prefix of "elsewhere" with no word-boundary check. -/
theorem C2_counterexample :
    generate_tokens (bytes "elsewhere") =
      .ok [Token.Else, Token.Ident (bytes "where")] ∧
    LexResult.ok [Token.Else, Token.Ident (bytes "where")] ≠
      .ok [Token.Ident (bytes "elsewhere")] := by
  constructor
  · decide
  · decide

/-- Claim C2, amended: keyword matching is attempted before identifier
matching and keyword literals are matched with no word-boundary check, so a
keyword prefix of a longer identifier IS split off: tokenizing "elsewhere"
yields exactly [Else, Ident("where")] (the `keyword` recognizer consumes
"else"), never [Ident("elsewhere")]. -/
theorem C2_theorem :
    generate_tokens (bytes "elsewhere") =
      .ok [Token.Else, Token.Ident (bytes "where")] ∧
    keyword (bytes "elsewhere") = .done (bytes "where") Token.Else := by
  constructor
  · decide
  · decide

/-- Claim C3, counterexample: `generate_tokens` on "99999999999" does not
return an error: the overflowing `integer` recognizer fails via `map_res!`,
but `alt!` then falls through to the catch-all `any`, which consumes one
digit character; after two such characters the remaining nine digits fit in
32 bits, so the run succeeds with [Char('9'), Char('9'), Integer(999999999)]. -/
theorem C3_counterexample :
    generate_tokens (bytes "99999999999") =
      .ok [Token.Char 57, Token.Char 57, Token.Integer 999999999] := by decide

/-- Claim C3, amended: integer literals are one or more decimal digits parsed
as 32-bit signed, and "2147483647" yields Ok([Integer(2147483647)]); overflow
makes only the `integer` recognizer fail, not the run: on "99999999999" the
catch-all consumes single digit characters until the remaining digits fit,
yielding Ok([Char('9'), Char('9'), Integer(999999999)]) instead of an error. -/
theorem C3_theorem :
    generate_tokens (bytes "2147483647") = .ok [Token.Integer 2147483647] ∧
    generate_tokens (bytes "99999999999") =
      .ok [Token.Char 57, Token.Char 57, Token.Integer 999999999] := by
  constructor
  · decide
  · decide

/-- Claim C4: tokenizing "else if" yields exactly [ElseIf] and never
[Else, Ident("if")]: the `keyword` recognizer tries the literal "else if"
before "else" (and keyword matching precedes identifier matching in
`get_token`). -/
theorem C4_theorem :
    generate_tokens (bytes "else if") = .ok [Token.ElseIf] ∧
    keyword (bytes "else if") = .done [] Token.ElseIf ∧
    LexResult.ok [Token.ElseIf] ≠ .ok [Token.Else, Token.Ident (bytes "if")] := by
  refine ⟨?_, ?_, ?_⟩
  · decide
  · decide
  · decide

/-- Claim C5: two-character operators are matched before their one-character
prefixes: "<=" yields exactly the single token [LesserEqual] and ":=" yields
exactly the single token [Assign]. -/
theorem C5_theorem :
    generate_tokens (bytes "<=") = .ok [Token.LesserEqual] ∧
    generate_tokens (bytes ":=") = .ok [Token.Assign] := by
  constructor
  · decide
  · decide

/-- Claim C6: on every non-empty input, a successful `get_token` strictly
shrinks the remaining buffer and only advances (the remainder is a suffix);
the catch-all `any` never fails whenever a non-whitespace byte remains; and
the `generate_tokens` loop terminates on every finite input (a fuel budget
of more than the buffer length is never exhausted). -/
theorem C6_theorem :
    (∀ (l rem : List Nat) (tok : Token), l ≠ [] → get_token l = .done rem tok →
      rem.length < l.length ∧ rem <:+ l) ∧
    (∀ l : List Nat, dropWs l ≠ [] → ∃ rem b, any l = .done rem (Token.Char b)) ∧
    (∀ (fuel : Nat) (l : List Nat), l.length < fuel →
      (generate_tokens_from fuel l).isSome = true) := by
  refine ⟨?_, ?_, ?_⟩
  · intro l rem tok hne h
    rcases get_token_done h with ⟨-, hrem⟩ | hs
    · subst hrem
      exact ⟨List.length_pos.mpr hne, List.nil_suffix⟩
    · exact hs
  · intro l hne
    cases hd : dropWs l with
    | nil => exact absurd hd hne
    | cons b r =>
      refine ⟨dropWs r, b, ?_⟩
      simp [any, anychar, hd]
  · intro fuel l h
    exact generate_tokens_from_isSome h

/-- Claim C6, witness: the strict-shrink part applied to the input "x"
(where `get_token` consumes everything), and the termination part applied to
the empty input with fuel 1. -/
theorem C6_witness :
    (([] : List Nat).length < (bytes "x").length ∧ ([] : List Nat) <:+ bytes "x") ∧
    (generate_tokens_from 1 ([] : List Nat)).isSome = true := by
  constructor
  · exact C6_theorem.1 (bytes "x") [] (Token.Ident (bytes "x")) (by decide) (by decide)
  · exact C6_theorem.2.2 1 [] (by decide)

/-- Claim C8: tokenizing the bytes of a quoted "hello world" (quotes
included) yields exactly [String("hello world")]: the delimiting quotes are
stripped and the interior space is preserved. -/
theorem C8_theorem :
    generate_tokens (bytes "\"hello world\"") =
      .ok [Token.String (bytes "hello world")] := by decide

/-- Claim C9: every input consisting solely of whitespace bytes (the empty
input included) tokenizes to Ok with the empty token sequence, and `Eof` is
never an element of any successful output of `generate_tokens`. -/
theorem C9_theorem :
    (∀ l : List Nat, (∀ b ∈ l, isWs b) → generate_tokens l = .ok []) ∧
    (∀ (l : List Nat) (ts : List Token), generate_tokens l = .ok ts → Token.Eof ∉ ts) := by
  constructor
  · intro l h
    exact generate_tokens_ws_only h
  · intro l ts h
    unfold generate_tokens at h
    cases h2 : generate_tokens_from (l.length + 1) l with
    | none =>
      rw [h2] at h
      simp at h
    | some r =>
      rw [h2] at h
      simp at h
      subst h
      exact generate_tokens_from_no_eof _ h2

/-- Claim C9, witness: the two-space input and the empty input produce Ok([]),
and the output for input "x" (namely [Ident("x")]) does not contain `Eof`. -/
theorem C9_witness :
    generate_tokens (bytes "  ") = .ok [] ∧ generate_tokens [] = .ok [] ∧
    Token.Eof ∉ [Token.Ident (bytes "x")] := by
  refine ⟨C9_theorem.1 (bytes "  ") (by decide), C9_theorem.1 [] (by decide),
          C9_theorem.2 (bytes "x") [Token.Ident (bytes "x")] (by decide)⟩

/-- Claim C10, counterexample: the input of exactly two double quotes does
NOT tokenize to [Char('"'), Char('"')]: the first quote does fall through to
the catch-all (the `string` recognizer errors because `is_not!` requires a
nonempty interior), but on the remaining single quote `string` consumes the
quote as an opener, `is_not!` matches zero bytes at end of input, and the
closing `char!('"')` reports `Incomplete`, which aborts the run. -/
theorem C10_counterexample :
    generate_tokens (bytes "\"\"") = .error (.incomplete (.size 1)) ∧
    LexResult.error (.incomplete (.size 1)) ≠
      .ok [Token.Char 34, Token.Char 34] := by
  constructor
  · decide
  · decide

/-- Claim C10, amended: for the input of exactly two double quotes,
`generate_tokens` does not produce String(""): the string recognizer requires
at least one byte strictly between the quotes, so the first quote falls
through to the catch-all and becomes Char('"'); but on the remaining single
quote the string recognizer consumes it as an opening quote and reports
`Incomplete` while looking for the closing quote, so the run returns an
`Incomplete` error rather than Ok([Char('"'), Char('"')]). -/
theorem C10_theorem :
    string (bytes "\"\"") = .error .IsNot ∧
    get_token (bytes "\"\"") = .done (bytes "\"") (Token.Char 34) ∧
    string (bytes "\"") = .incomplete (.size 1) ∧
    generate_tokens (bytes "\"\"") = .error (.incomplete (.size 1)) := by
  refine ⟨?_, ?_, ?_, ?_⟩
  · decide
  · decide
  · decide
  · decide

end Gentlemen
